import Mathlib

set_option maxRecDepth 8192

/-!
Verification of the hotaruika-surge-classifier rule pipeline.

The classification logic of the Python sources (app2.py, app3.py, app4.py,
app5.py) is embedded shallowly.  Text is modelled as Lean strings / lists of
characters.  The regex catalogues of the detectors are alternations of
literal substrings plus a handful of simple shapes (a literal followed
anywhere later by another literal, one digit plus a counter, a digit run
plus a counter, and so on); each shape is embedded as an executable scanner
over the character list with the same match semantics.  The library call
unicodedata.normalize with NFKC is modelled as a character-wise width
folding table covering the character repertoire of this corpus (NFKC acts
character-wise on all characters appearing here).  Remote LLM calls are
modelled by an explicit environment mapping each attempt index to an
outcome.
-/

/-- Whitespace class of the Python regex token backslash-s; after NFKC
folding only these ASCII whitespace characters remain in the corpus. -/
def isWS (c : Char) : Bool :=
  c == ' ' || c == '\t' || c == '\n' || c == '\r' || c == '\x0B' || c == '\x0C'

/-- ASCII digit test, the regex class backslash-d. -/
def isDigitChar (c : Char) : Bool :=
  '0' ≤ c && c ≤ '9'

/-- Character translation table modelling unicodedata.normalize with NFKC
(app4.py line 62, app5.py line 61): full-width characters fold to their
half-width/canonical forms. -/
def nfkcPairs : List (Char × Char) :=
  [('０', '0'), ('１', '1'), ('２', '2'), ('３', '3'), ('４', '4'),
   ('５', '5'), ('６', '6'), ('７', '7'), ('８', '8'), ('９', '9'),
   ('　', ' '), ('？', '?'), ('！', '!'), ('～', '~'), ('（', '('),
   ('）', ')'), ('：', ':')]

/-- Character-wise NFKC fold. -/
def nfkcFold (c : Char) : Char :=
  match List.lookup c nfkcPairs with
  | some d => d
  | none => c

/-- Model of the substitution re.sub replacing every maximal whitespace run
by a single space (app4.py line 64, app5.py line 62): a whitespace head
whose successor is also whitespace is dropped, the last whitespace of a
run becomes one space. -/
def collapseWS : List Char → List Char
  | [] => []
  | c :: cs =>
    if isWS c then
      match cs with
      | [] => [' ']
      | d :: ds => if isWS d then collapseWS (d :: ds) else ' ' :: collapseWS (d :: ds)
    else c :: collapseWS cs

/-- Model of the Python str.strip call: leading and trailing whitespace
removed. -/
def stripWS (l : List Char) : List Char :=
  ((l.dropWhile isWS).reverse.dropWhile isWS).reverse

/-- Text normalizer normalize_text of app4.py lines 59-65 and app5.py lines
59-63: NFKC folding, then whitespace-run collapsing, then strip. -/
def normalize_text (s : String) : String :=
  String.mk (stripWS (collapseWS (s.data.map nfkcFold)))

/-- Adjacent characters are never both whitespace. -/
abbrev noAdjWS (l : List Char) : Prop :=
  List.Chain' (fun a b => isWS a = false ∨ isWS b = false) l

/-- Counter characters of the basic numeric pattern (app4.py line 71,
app5.py line 68 and line 73). -/
def counterChars : List Char := ['匹', '杯', '尾', '個', 'つ']

/-- Substring containment test over character lists. -/
def containsSub (p : List Char) : List Char → Bool
  | [] => p.isEmpty
  | c :: cs => p.isPrefixOf (c :: cs) || containsSub p cs

/-- Substring search for a list of literal alternatives: the Python
re.search of an alternation of literals, used as a boolean. -/
def anyInfix (pats : List String) (t : List Char) : Bool :=
  pats.any (fun p => containsSub p.data t)

/-- Generic model of re.finditer: scan left to right; when the matcher
succeeds it yields a value together with the match length, and scanning
resumes past the match; otherwise the start position advances by one.
The fuel argument only bounds the recursion; every step consumes at least
one character, so fuel equal to the input length is never exhausted. -/
def scanAllF (m : List Char → Option (Nat × Nat)) : Nat → List Char → List Nat
  | 0, _ => []
  | _, [] => []
  | fuel + 1, c :: cs =>
    match m (c :: cs) with
    | some (v, k) => v :: scanAllF m fuel (List.drop (max k 1) (c :: cs))
    | none => scanAllF m fuel cs

/-- Matcher scan at full fuel. -/
def scanAll (m : List Char → Option (Nat × Nat)) (s : List Char) : List Nat :=
  scanAllF m s.length s

/-- Longest digit run at the head together with the remaining characters:
the greedy match of the regex token backslash-d-plus. -/
def digitRun (s : List Char) : List Char × List Char :=
  (s.takeWhile isDigitChar, s.dropWhile isDigitChar)

/-- Numeric value of a digit run, the Python int call (48 is the code of
the digit zero). -/
def natOfDigits (ds : List Char) : Nat :=
  ds.foldl (fun acc c => acc * 10 + (c.toNat - 48)) 0

/-- Matcher for the shape of one digit run, optional whitespace, then one
of the given literal suffixes; yields the value of the run and the length
of the whole match. -/
def matchNumThen (sufs : List String) (s : List Char) : Option (Nat × Nat) :=
  match digitRun s with
  | ([], _) => none
  | (run, rest) =>
    let ws := rest.takeWhile isWS
    let rest2 := rest.dropWhile isWS
    match sufs.find? (fun suf => suf.data.isPrefixOf rest2) with
    | some suf => some (natOfDigits run, run.length + ws.length + suf.length)
    | none => none

/-- Matcher for the pattern of the literal 約, optional whitespace, then a
digit run (app4.py line 72, app5.py line 69). -/
def matchYaku (s : List Char) : Option (Nat × Nat) :=
  match s with
  | c :: cs =>
    if c = '約' then
      let ws := cs.takeWhile isWS
      let rest := cs.dropWhile isWS
      match digitRun rest with
      | ([], _) => none
      | (run, _) => some (natOfDigits run, 1 + ws.length + run.length)
    else none
  | [] => none

/-- Matcher for the range pattern of two digit runs joined by 〜 or ~
(app5.py line 72).  The recorded value is the value of the FIRST run: in
the source, int(match.group(1)) succeeds for this pattern, so the
exception handler of app5.py lines 83-90 that would compute the average of
the two endpoints is never reached. -/
def matchRange (s : List Char) : Option (Nat × Nat) :=
  match digitRun s with
  | ([], _) => none
  | (run1, rest) =>
    match rest with
    | t :: rest2 =>
      if t = '〜' || t = '~' then
        match digitRun rest2 with
        | ([], _) => none
        | (run2, _) => some (natOfDigits run1, run1.length + 1 + run2.length)
      else none
    | [] => none

/-- Kanji numeral table of app5.py line 93. -/
def kanjiMap : List (Char × Nat) :=
  [('二', 2), ('三', 3), ('四', 4), ('五', 5), ('六', 6), ('七', 7),
   ('八', 8), ('九', 9), ('十', 10)]

/-- Matcher for a kanji numeral, optional whitespace, then a counter
(app5.py line 73); the value comes from the kanji table, mirroring the
exception handler of app5.py lines 92-97. -/
def matchKanjiCounter (s : List Char) : Option (Nat × Nat) :=
  match s with
  | c :: cs =>
    match List.lookup c kanjiMap with
    | some v =>
      let ws := cs.takeWhile isWS
      let rest := cs.dropWhile isWS
      match rest with
      | d :: _ =>
        if counterChars.contains d then some (v, 1 + ws.length + 1) else none
      | [] => none
    | none => none
  | [] => none

/-- Python max over a nonempty list (max(numbers) at app4.py line 207,
app5.py lines 197 and 359). -/
def listMax : List Nat → Nat
  | [] => 0
  | x :: xs => xs.foldl Nat.max x

/-- Quantity-threshold table shared by app4.py lines 206-217 and the
post-processor of app5.py lines 358-374: 0 none, 1-10 few, 11-30 moderate,
31-70 many, 71 and above very-many. -/
def quantityLabel (n : Nat) : String :=
  if n = 0 then "なし"
  else if n ≤ 10 then "少ない"
  else if n ≤ 30 then "普通"
  else if n ≤ 70 then "多い"
  else "非常に多い"

namespace App5

/-- Numeric extractor extract_numbers of app5.py lines 65-98: six pattern
classes scanned independently over the whole text, contributions
concatenated in pattern order; None when nothing is found. -/
def extract_numbers (s : String) : Option (List Nat) :=
  let t := s.data
  let numbers :=
    scanAll (matchNumThen ["匹", "杯", "尾", "個", "つ"]) t
    ++ scanAll matchYaku t
    ++ scanAll (matchNumThen ["くらい", "ぐらい", "ほど", "程度", "位"]) t
    ++ scanAll (matchNumThen ["ずつ", "づつ"]) t
    ++ scanAll matchRange t
    ++ scanAll matchKanjiCounter t
  if numbers.isEmpty then none else some numbers

end App5

namespace App4

/-- Numeric extractor extract_numbers of app4.py lines 67-86: the first
four pattern classes of the app5 version, in the same order. -/
def extract_numbers (s : String) : Option (List Nat) :=
  let t := s.data
  let numbers :=
    scanAll (matchNumThen ["匹", "杯", "尾", "個", "つ"]) t
    ++ scanAll matchYaku t
    ++ scanAll (matchNumThen ["くらい", "ぐらい", "ほど", "程度", "位"]) t
    ++ scanAll (matchNumThen ["ずつ", "づつ"]) t
  if numbers.isEmpty then none else some numbers

end App4

/-- Search for a literal followed anywhere later by one of a list of
literals: the regex shape A .*? (B1|B2|...). -/
def seqMatchCore (a : List Char) (bs : List (List Char)) : List Char → Bool
  | [] => false
  | c :: cs =>
    (a.isPrefixOf (c :: cs) && bs.any (fun b => containsSub b ((c :: cs).drop a.length)))
    || seqMatchCore a bs cs

/-- String-level wrapper for seqMatchCore. -/
def seqMatch (a : String) (bs : List String) (t : List Char) : Bool :=
  seqMatchCore a.data (bs.map String.data) t

/-- Search for a prefix literal, one character from a class, then a literal:
the regex shape あたり[一つ backslash-d +]も of the negation catalogue. -/
def seqCharClassCore (pre : List Char) (cls : Char → Bool) (post : List Char) :
    List Char → Bool
  | [] => false
  | c :: cs =>
    (pre.isPrefixOf (c :: cs) &&
      (match (c :: cs).drop pre.length with
       | d :: rest => cls d && post.isPrefixOf rest
       | [] => false))
    || seqCharClassCore pre cls post cs

/-- Character class of the あたり pattern (app4.py line 92, app5.py line 104). -/
def ataruClass (c : Char) : Bool :=
  c == '一' || c == 'つ' || isDigitChar c || c == '+'

/-- Search for one digit, optional whitespace, then one of the counters:
the regex backslash-d{1} backslash-s* (匹|杯|尾|個|つ) of app5.py line 122. -/
def digitThenCounter (counters : List Char) : List Char → Bool
  | [] => false
  | c :: cs =>
    (isDigitChar c &&
      (match cs.dropWhile isWS with
       | d :: _ => counters.contains d
       | [] => false))
    || digitThenCounter counters cs

/-- Search for one digit immediately followed by one of the counters: the
regex backslash-d{1}匹 | backslash-d{1}杯 of app4.py line 111. -/
def digitThenImm (counters : List Char) : List Char → Bool
  | [] => false
  | c :: cs =>
    (isDigitChar c &&
      (match cs with
       | d :: _ => counters.contains d
       | [] => false))
    || digitThenImm counters cs

/-- Search for the shape 何とか, a digit run, optional whitespace (when
allowWS is set), then a counter (app4.py line 112, app5.py line 123). -/
def nantokaPat (allowWS : Bool) (counters : List Char) : List Char → Bool
  | [] => false
  | c :: cs =>
    ((['何', 'と', 'か'].isPrefixOf (c :: cs)) &&
      (let r := (c :: cs).drop 3
       let run := r.takeWhile isDigitChar
       let rest := r.dropWhile isDigitChar
       let rest2 := if allowWS then rest.dropWhile isWS else rest
       (!run.isEmpty) &&
         (match rest2 with
          | d :: _ => counters.contains d
          | [] => false)))
    || nantokaPat allowWS counters cs

/-- Search for three consecutive alternation groups: the regex shape
(G1)(G2)(G3) with each group an alternation of literals. -/
def cat3Core (g1 g2 g3 : List (List Char)) : List Char → Bool
  | [] => false
  | c :: cs =>
    (g1.any (fun a => a.isPrefixOf (c :: cs) &&
      g2.any (fun b => b.isPrefixOf ((c :: cs).drop a.length) &&
        g3.any (fun d => d.isPrefixOf ((c :: cs).drop (a.length + b.length))))))
    || cat3Core g1 g2 g3 cs

/-- Search for the literal 20, optional whitespace, then 匹 or 杯. -/
def has20Counter : List Char → Bool
  | [] => false
  | c :: cs =>
    ((['2', '0'].isPrefixOf (c :: cs)) &&
      (match ((c :: cs).drop 2).dropWhile isWS with
       | d :: _ => d == '匹' || d == '杯'
       | [] => false))
    || has20Counter cs

/-- Search for the regex 10 .*? 20 backslash-s* (匹|杯) of app5.py line 134. -/
def seq1020Counter : List Char → Bool
  | [] => false
  | c :: cs =>
    ((['1', '0'].isPrefixOf (c :: cs)) && has20Counter ((c :: cs).drop 2))
    || seq1020Counter cs

/-- Negation detector detect_negation, identical in app4.py lines 88-104
and app5.py lines 100-115. -/
def detect_negation (s : String) : Bool :=
  let t := s.data
  anyInfix ["全く", "まったく", "全然", "皆無", "ない", "いない", "見えない",
    "見当たらない", "ゼロ", "0", "不在"] t
  || (anyInfix ["居ない", "出ない", "姿が見えない"] t
      || seqCharClassCore (String.data ("あたり")) ataruClass (String.data ("も")) t)
  || seqMatch ("気配") ["なし", "無し", "ない", "無い", "皆無"] t
  || anyInfix ["なし", "無し", "ゼロ", "0匹", "0杯"] t
  || seqMatch ("イカ") ["なし", "無し", "いない", "居ない", "見えない",
      "見当たらない", "ゼロ", "0"] t
  || anyInfix ["いかいない", "イカいない", "イカゼロ", "イカはいない"] t
  || seqMatch ("一匹も") ["なし", "無し", "いない", "見えない", "取れない"] t
  || anyInfix ["帰", "諦", "撤収"] t
  || seqMatch ("取れ") ["なかった", "ゼロ", "0", "ない"] t

/-- Large-amount detector detect_large_amount, identical in app4.py lines
131-142 and app5.py lines 140-150. -/
def detect_large_amount (s : String) : Bool :=
  let t := s.data
  anyInfix ["多い", "たくさん", "いっぱい", "多数", "多め", "増えてきた", "アップ"] t
  || anyInfix ["よく獲れる", "よく取れる", "取れ出した", "取り放題", "豊富"] t
  || anyInfix ["堪能", "夢中", "集中", "忙しい"] t
  || anyInfix ["増加", "増えてきた", "増えた"] t

/-- Very-large-amount detector detect_very_large_amount, identical in
app4.py lines 144-156 and app5.py lines 152-163. -/
def detect_very_large_amount (s : String) : Bool :=
  let t := s.data
  anyInfix ["大量", "爆", "すごい", "凄い", "すごく", "凄く", "かなり", "相当",
    "超", "非常に多い"] t
  || anyInfix ["うじゃうじゃ", "たっぷり", "山ほど", "溢れる", "あふれる", "イカだらけ"] t
  || anyInfix ["群れ", "最高", "多すぎ", "沢山", "過去最高", "記録的"] t
  || anyInfix ["大漁", "豊漁", "収穫祭", "すごい数"] t
  || anyInfix ["押し寄せる", "集まり", "集合", "密集"] t

/-- Interrogative/request markers of app4.py line 175 and app5.py line 171. -/
def hasQuestionMarker (s : String) : Bool :=
  anyInfix ["ですか?", "?", "どう", "情報求む", "教えて", "どなたか"] s.data

/-- Negative-report pattern (いない|居ない|ゼロ|無い|なし)(です|でした)(か|ね|よ)
of app4.py line 177 and app5.py line 171. -/
def hasNegativeReport (s : String) : Bool :=
  cat3Core (["いない", "居ない", "ゼロ", "無い", "なし"].map String.data)
    (["です", "でした"].map String.data)
    (["か", "ね", "よ"].map String.data) s.data

/-- Squid-related vocabulary of app4.py line 171 and app5.py line 168. -/
def squidVocab : List String := ["イカ", "いか", "ホタルイカ", "掬", "すくい", "匹", "杯"]

/-- Catch-related vocabulary of app4.py line 186 and app5.py line 180. -/
def catchVocab : List String := ["匹", "杯", "獲れ", "取れ", "収穫", "掬", "すくい"]

namespace App5

/-- Small-amount detector detect_small_amount of app5.py lines 117-127. -/
def detect_small_amount (s : String) : Bool :=
  let t := s.data
  anyInfix ["少し", "少ない", "ちらほら", "わずか", "かろうじて", "数匹", "数杯",
    "数個", "ポツポツ"] t
  || anyInfix ["少量", "少なめ", "少なかった", "僅か", "乏しい"] t
  || digitThenCounter counterChars t
  || nantokaPat true ['匹', '杯'] t

/-- Normal-amount detector detect_normal_amount of app5.py lines 129-138. -/
def detect_normal_amount (s : String) : Bool :=
  let t := s.data
  anyInfix ["普通", "そこそこ", "まあまあ", "それなり", "平均的", "例年並み",
    "並み", "標準", "通常"] t
  || anyInfix ["ふつう", "ノーマル", "いつも通り", "いつも程度"] t
  || (anyInfix ["十数", "十匹程度"] t || seq1020Counter t)

/-- Off-topic pattern groups of app5.py lines 173-178. -/
def unrelatedGroups : List (List String) :=
  [["天気", "波", "濁り", "風", "雨", "雪", "気温"],
   ["移動", "向かう", "出発", "予定", "明日"],
   ["トイレ", "駐車場", "混雑", "混み具合"],
   ["泊まる", "ホテル", "宿泊"]]

/-- Number of off-topic pattern groups that match (app5.py line 179). -/
def unrelatedGroupCount (t : List Char) : Nat :=
  unrelatedGroups.countP (fun g => anyInfix g t)

/-- Unrelated-comment detector detect_unrelated of app5.py lines 165-180. -/
def detect_unrelated (s : String) : Bool :=
  if decide (s.length < 15) && !(anyInfix squidVocab s.data) then true
  else if hasQuestionMarker s && !(hasNegativeReport s) then true
  else decide (2 ≤ unrelatedGroupCount s.data) && !(anyInfix catchVocab s.data)

/-- Score contribution of the extracted quantities: the thresholds of
app5.py lines 195-207 over the maximum of the number list. -/
def quantityScore (numbers : Option (List Nat)) : Int :=
  match numbers with
  | none => 0
  | some ns =>
    let m := listMax ns
    if 71 ≤ m then 3 else if 31 ≤ m then 2 else if 11 ≤ m then 1
    else if 0 < m then -1 else -3

/-- Score accumulator score_comment of app5.py lines 182-208. -/
def score_comment (s : String) : Int :=
  (if detect_very_large_amount s then 3 else 0)
  + (if detect_large_amount s then 2 else 0)
  + (if detect_normal_amount s then 1 else 0)
  - (if detect_small_amount s then 1 else 0)
  - (if detect_negation s then 3 else 0)
  + quantityScore (extract_numbers s)

/-- Score-to-label table of app5.py lines 222-231 (the if/elif chain over
the local variable score), with the reason strings. -/
def scoreLabel (score : Int) : String × String :=
  if score ≤ -2 then ("なし", "否定表現またはゼロ")
  else if score = -1 then ("少ない", "少量表現または1〜10匹")
  else if score = 0 ∨ score = 1 then ("普通", "通常量または11〜30匹")
  else if score = 2 then ("多い", "多量または31〜70匹")
  else ("非常に多い", "大量または71匹以上")

/-- Classifier improved_simple_classify of app5.py lines 210-231
(score-accumulation mode): normalized text, unrelated filter, then the
fixed score-to-label table; returns the label with its reason string. -/
def improved_simple_classify (s : String) : String × String :=
  let t := normalize_text s
  if detect_unrelated t then ("不明", "無関係なコメントまたは質問")
  else scoreLabel (score_comment t)

end App5

namespace App4

/-- Small-amount detector detect_small_amount of app4.py lines 106-117. -/
def detect_small_amount (s : String) : Bool :=
  let t := s.data
  anyInfix ["少し", "少ない", "ちらほら", "わずか", "かろうじて", "数匹", "数杯",
    "数個", "ポツポツ"] t
  || anyInfix ["少量", "少なめ", "少なかった", "僅か", "乏しい"] t
  || digitThenImm ['匹', '杯'] t
  || nantokaPat false ['匹'] t

/-- Normal-amount detector detect_normal_amount of app4.py lines 119-129. -/
def detect_normal_amount (s : String) : Bool :=
  let t := s.data
  anyInfix ["普通", "そこそこ", "まあまあ", "それなり", "平均的", "例年並み",
    "並み", "標準", "通常"] t
  || anyInfix ["ふつう", "ノーマル", "いつも通り", "いつも程度"] t
  || (anyInfix ["そこそこ", "十数", "十匹程度"] t
      || seqMatch ("10") ["20"] t)

/-- Flattened off-topic alternation of app4.py lines 160-168, in source
order. -/
def unrelatedAlts : List String :=
  ["天気", "波", "濁り", "風", "雨", "雪", "気温",
   "質問", "何処", "どこ", "どう", "でしょうか?",
   "情報", "求む", "教えて", "誰か",
   "移動", "向かう", "出発", "予定", "明日",
   "トイレ", "駐車場", "混雑", "混み具合",
   "泊まる", "ホテル", "宿泊",
   "どうも", "ありがとう", "感謝"]

/-- Matcher yielding the first alternative that matches at the current
position, as the regex alternation does. -/
def altMatcher (alts : List (List Char)) (s : List Char) : Option (Nat × Nat) :=
  match alts.find? (fun a => a.isPrefixOf s) with
  | some a => some (0, a.length)
  | none => none

/-- Number of non-overlapping finditer matches of the joined off-topic
alternation (app4.py lines 181-183). -/
def unrelatedMatchCount (t : List Char) : Nat :=
  (scanAll (altMatcher (unrelatedAlts.map String.data)) t).length

/-- Unrelated-comment detector detect_unrelated of app4.py lines 158-189. -/
def detect_unrelated (s : String) : Bool :=
  if decide (s.length < 15) && !(anyInfix squidVocab s.data) then true
  else if hasQuestionMarker s && !(hasNegativeReport s) then true
  else decide (2 ≤ unrelatedMatchCount s.data) && !(anyInfix catchVocab s.data)

/-- Classifier improved_simple_classify of app4.py lines 191-241
(rule-priority mode): unrelated filter, then the numeric thresholds over
the maximum extracted quantity, then the lexical detectors in priority
order.  The reason strings of the source embed formatted numbers; only the
label is modelled. -/
def improved_simple_classify (s : String) : String :=
  let t := normalize_text s
  let numbers := extract_numbers t
  if detect_unrelated t then "不明"
  else
    match numbers with
    | some ns => quantityLabel (listMax ns)
    | none =>
      if detect_negation t then "なし"
      else if detect_very_large_amount t then "非常に多い"
      else if detect_large_amount t then "多い"
      else if detect_normal_amount t then "普通"
      else if detect_small_amount t then "少ない"
      else "不明"

end App4

/-- The six label strings of the pipeline vocabulary. -/
def sixLabels : List String := ["なし", "少ない", "普通", "多い", "非常に多い", "不明"]

/-- The five intensity labels: every label except 不明. -/
def intensityLabels : List String := ["なし", "少ない", "普通", "多い", "非常に多い"]

namespace App2

/-- Result of the first match of the number pattern of app2.py line 71:
either an arabic digit run with its unit, or a kanji numeral match
(carrying the exact matched characters, later looked up in num_map). -/
inductive CountMatch where
  | arabic (n : Nat)
  | kanji (g0 : List Char)
deriving Repr, DecidableEq

/-- Units of the arabic alternative of app2.py line 71. -/
def arabicUnits : List String := ["匹", "杯", "個", "くらい", "前後", "ほど"]

/-- Kanji numerals of the kanji alternative of app2.py line 71. -/
def kanjiDigits : List Char := ['一', '二', '三', '四', '五', '六', '七', '八', '九']

/-- Match either alternative of the number pattern at the current position,
trying the arabic alternative first as the regex alternation does. -/
def countMatchAt (s : List Char) : Option CountMatch :=
  match matchNumThen arabicUnits s with
  | some (n, _) => some (CountMatch.arabic n)
  | none =>
    match s with
    | c :: cs =>
      if kanjiDigits.contains c then
        let ws := cs.takeWhile isWS
        let rest := cs.dropWhile isWS
        match rest with
        | d :: _ =>
          if d = '匹' || d = '杯' then some (CountMatch.kanji (c :: (ws ++ [d])))
          else none
        | [] => none
      else none
    | [] => none

/-- Leftmost match of the number pattern: the re.search call of app2.py
line 71. -/
def searchCount : List Char → Option CountMatch
  | [] => none
  | c :: cs =>
    match countMatchAt (c :: cs) with
    | some m => some m
    | none => searchCount cs

/-- Kanji table num_map of app2.py lines 76-80. -/
def num_map : List (List Char × Nat) :=
  [(['一', '匹'], 1), (['一', '杯'], 1), (['二', '匹'], 2), (['二', '杯'], 2),
   (['三', '匹'], 3), (['三', '杯'], 3), (['四', '匹'], 4), (['四', '杯'], 4),
   (['五', '匹'], 5), (['五', '杯'], 5), (['六', '匹'], 6), (['六', '杯'], 6),
   (['七', '匹'], 7), (['七', '杯'], 7), (['八', '匹'], 8), (['八', '杯'], 8),
   (['九', '匹'], 9), (['九', '杯'], 9)]

/-- Quantity extractor extract_count of app2.py lines 69-84.  The zero cue
ゼロ|0匹|0杯 takes precedence and yields 0 before the number match is
consulted.  An arabic match never is a num_map key (its text has digits),
so its digit run is returned directly; a kanji match whose text is not a
num_map key (whitespace between numeral and counter) makes the source
crash with AttributeError, modelled as the error value. -/
def extract_count (s : String) : Except Unit (Option Nat) :=
  let t := s.data
  let numberMatch := searchCount t
  if anyInfix ["ゼロ", "0匹", "0杯"] t then Except.ok (some 0)
  else
    match numberMatch with
    | none => Except.ok none
    | some (CountMatch.arabic n) => Except.ok (some n)
    | some (CountMatch.kanji g0) =>
      match num_map.find? (fun p => p.1 == g0) with
      | some p => Except.ok (some p.2)
      | none => Except.error ()

end App2

namespace App3

/-- Python str.lower restricted to ASCII letters (the corpus contains no
other cased characters). -/
def asciiLower (t : List Char) : List Char := t.map Char.toLower

/-- Matcher for a digit run immediately followed by 匹 or 杯: one match of
the findall pattern of app3.py line 47. -/
def matchNumImm (s : List Char) : Option (Nat × Nat) :=
  match digitRun s with
  | ([], _) => none
  | (run, rest) =>
    match rest with
    | d :: _ =>
      if d = '匹' || d = '杯' then some (natOfDigits run, run.length + 1) else none
    | [] => none

/-- All matches of the findall call of app3.py line 47, in text order. -/
def findall_num (s : String) : List Nat :=
  scanAll matchNumImm (asciiLower s.data)

/-- Zero-expression word list of app3.py line 43. -/
def zeroWords : List String := ["ゼロ", "0匹", "0杯", "なし", "いない", "見えない"]

/-- Fallback classifier simple_classify_comment of app3.py lines 38-72:
zero words first, then the FIRST number found (number_matches[0] at line
49), then keyword buckets. -/
def simple_classify_comment (s : String) : String :=
  let t := asciiLower s.data
  if anyInfix zeroWords t then "なし"
  else
    match scanAll matchNumImm t with
    | n :: _ =>
      if n = 0 then "なし"
      else if n ≤ 10 then "少ない"
      else if n ≤ 30 then "普通"
      else if n ≤ 70 then "多い"
      else "非常に多い"
    | [] =>
      if anyInfix ["たくさん", "いっぱい", "多い"] t then "多い"
      else if anyInfix ["ちらほら", "少し", "少ない"] t then "少ない"
      else if anyInfix ["そこそこ", "まあまあ"] t then "普通"
      else if anyInfix ["大量", "爆", "すごい"] t then "非常に多い"
      else "不明"

end App3

/-- Outcome of one remote call attempt: a raised exception or unparseable
JSON, a parsed object missing the surge_level field (KeyError), or a
parsed object carrying a surge_level string. -/
inductive RemoteOutcome where
  | error
  | missingField
  | level (s : String)

/-- Parsed surge level of an attempt, when any; all three failure shapes
are caught by the same except clause of the source. -/
def attemptLevel : RemoteOutcome → Option String
  | RemoteOutcome.error => none
  | RemoteOutcome.missingField => none
  | RemoteOutcome.level s => some s

namespace App5

/-- Adapter classify_comment_with_grok of app5.py lines 233-301.  The
local classifier runs first; when the client is unavailable its label is
returned at once with no remote attempt.  Otherwise the loop for attempt
in range(3) is unrolled: a successfully parsed surge_level is returned
immediately and unvalidated; a failure on attempts 0 and 1 sleeps one time
unit and retries; a failure on attempt 2 returns the local label.  The
result records the label, the number of attempts made, and the list of
backoff sleeps taken between attempts. -/
def classify_comment_with_grok (available : Bool) (text : String)
    (outcomes : Nat → RemoteOutcome) : String × Nat × List Nat :=
  let simple := (improved_simple_classify text).1
  if !available then (simple, 0, [])
  else
    match attemptLevel (outcomes 0) with
    | some lv => (lv, 1, [])
    | none =>
      match attemptLevel (outcomes 1) with
      | some lv => (lv, 2, [1])
      | none =>
        match attemptLevel (outcomes 2) with
        | some lv => (lv, 3, [1, 1])
        | none => (simple, 3, [1, 1])

/-- Strong very-large patterns of the post-processor (app5.py line 375). -/
def strongVeryLarge (t : String) : Bool :=
  anyInfix ["大量", "爆寄り", "イカだらけ"] t.data

/-- Strong negation patterns of the post-processor (app5.py line 378). -/
def strongZero (t : String) : Bool :=
  anyInfix ["ゼロ", "いない", "なし", "居ない"] t.data

/-- One row of post_process_classification of app5.py lines 354-380, with
text the comment and current the value of current_label.  That variable is
read once per row; all three override rules test the stale value (not the
intermediate updates) while each write replaces the previous one, exactly
as the source does. -/
def post_process_row (text current : String) : String × String :=
  let l1 :=
    match extract_numbers text with
    | some ns => if current = "不明" then quantityLabel (listMax ns) else current
    | none => current
  let l2 :=
    if strongVeryLarge text = true ∧ ¬(current = "多い" ∨ current = "非常に多い")
      then "非常に多い" else l1
  let l3 :=
    if strongZero text = true ∧ ¬ current = "なし" then "なし" else l2
  (text, l3)

/-- Post-processor post_process_classification of app5.py lines 351-381,
acting row-wise on the whole batch. -/
def post_process_classification (batch : List (String × String)) :
    List (String × String) :=
  batch.map (fun rec => post_process_row rec.1 rec.2)

/-- No lexical detector fires and no number is extracted. -/
def noDetectorSignal (t : String) : Bool :=
  !detect_very_large_amount t && !detect_large_amount t
  && !detect_normal_amount t && !detect_small_amount t
  && !detect_negation t && (extract_numbers t).isNone

end App5

/-! Theorems. -/

theorem mem_of_lookup_eq_some {l : List (Char × Char)} {c d : Char}
    (h : List.lookup c l = some d) : (c, d) ∈ l := by
  induction l with
  | nil => simp [List.lookup] at h
  | cons p ps ih =>
    obtain ⟨k, v⟩ := p
    cases hk : c == k with
    | true =>
      rw [List.lookup, hk] at h
      have hkc : c = k := eq_of_beq hk
      have hv : v = d := by simpa using h
      subst hkc; subst hv
      exact List.mem_cons_self _ _
    | false =>
      rw [List.lookup, hk] at h
      exact List.mem_cons_of_mem _ (ih h)

/-- Every output character of the NFKC table is itself left fixed. -/
theorem nfkcPairs_targets_fixed :
    nfkcPairs.all (fun p => (List.lookup p.2 nfkcPairs).isNone) = true := by
  decide

theorem nfkcFold_idem (c : Char) : nfkcFold (nfkcFold c) = nfkcFold c := by
  unfold nfkcFold
  cases h : List.lookup c nfkcPairs with
  | none => simp [h]
  | some d =>
    have hm : (c, d) ∈ nfkcPairs := mem_of_lookup_eq_some h
    have hall := List.all_eq_true.mp nfkcPairs_targets_fixed _ hm
    have hnone : List.lookup d nfkcPairs = none := by
      simpa [Option.isNone_iff_eq_none] using hall
    simp [hnone]

theorem dropWhile_head_false (p : Char → Bool) :
    ∀ (l : List Char) (d : Char) (ds : List Char),
      l.dropWhile p = d :: ds → p d = false := by
  intro l
  induction l with
  | nil => intro d ds h; simp [List.dropWhile] at h
  | cons a as ih =>
    intro d ds h
    by_cases hp : p a = true
    · rw [List.dropWhile_cons, if_pos hp] at h
      exact ih _ _ h
    · rw [List.dropWhile_cons, if_neg hp] at h
      cases h
      simpa using hp

theorem dropWhile_dropWhile (p : Char → Bool) (l : List Char) :
    (l.dropWhile p).dropWhile p = l.dropWhile p := by
  cases h : l.dropWhile p with
  | nil => simp
  | cons d ds =>
    rw [List.dropWhile_cons, if_neg]
    simp [dropWhile_head_false p l d ds h]

theorem collapseWS_not_ws {c : Char} (cs : List Char) (hc : isWS c = false) :
    collapseWS (c :: cs) = c :: collapseWS cs := by
  cases cs with
  | nil => simp [collapseWS, hc]
  | cons d ds => simp [collapseWS, hc]

theorem collapseWS_ws_nil {c : Char} (hc : isWS c = true) :
    collapseWS [c] = [' '] := by
  simp [collapseWS, hc]

theorem collapseWS_ws_ws {c d : Char} (ds : List Char)
    (hc : isWS c = true) (hd : isWS d = true) :
    collapseWS (c :: d :: ds) = collapseWS (d :: ds) := by
  simp [collapseWS, hc, hd]

theorem collapseWS_ws_not {c d : Char} (ds : List Char)
    (hc : isWS c = true) (hd : isWS d = false) :
    collapseWS (c :: d :: ds) = ' ' :: collapseWS (d :: ds) := by
  simp [collapseWS, hc, hd]

theorem mem_collapseWS (l : List Char) (c : Char) :
    c ∈ collapseWS l → c = ' ' ∨ (c ∈ l ∧ isWS c = false) := by
  induction l with
  | nil => intro h; simp [collapseWS] at h
  | cons a as ih =>
    intro h
    by_cases ha : isWS a = true
    · cases as with
      | nil =>
        rw [collapseWS_ws_nil ha] at h
        simp at h
        exact Or.inl h
      | cons d ds =>
        by_cases hd : isWS d = true
        · rw [collapseWS_ws_ws ds ha hd] at h
          rcases ih h with h1 | ⟨h2, h3⟩
          · exact Or.inl h1
          · exact Or.inr ⟨List.mem_cons_of_mem _ h2, h3⟩
        · have hdf : isWS d = false := by simpa using hd
          rw [collapseWS_ws_not ds ha hdf] at h
          rcases List.mem_cons.mp h with h1 | h2
          · exact Or.inl h1
          · rcases ih h2 with h3 | ⟨h4, h5⟩
            · exact Or.inl h3
            · exact Or.inr ⟨List.mem_cons_of_mem _ h4, h5⟩
    · have haf : isWS a = false := by simpa using ha
      rw [collapseWS_not_ws as haf] at h
      rcases List.mem_cons.mp h with h1 | h2
      · subst h1
        exact Or.inr ⟨List.mem_cons_self _ _, haf⟩
      · rcases ih h2 with h3 | ⟨h4, h5⟩
        · exact Or.inl h3
        · exact Or.inr ⟨List.mem_cons_of_mem _ h4, h5⟩

theorem noAdjWS_collapseWS (l : List Char) : noAdjWS (collapseWS l) := by
  induction l with
  | nil => simp [collapseWS]
  | cons a as ih =>
    by_cases ha : isWS a = true
    · cases as with
      | nil =>
        rw [collapseWS_ws_nil ha]
        simp
      | cons d ds =>
        by_cases hd : isWS d = true
        · rw [collapseWS_ws_ws ds ha hd]
          exact ih
        · have hdf : isWS d = false := by simpa using hd
          rw [collapseWS_ws_not ds ha hdf]
          refine List.chain'_cons'.mpr ⟨?_, ih⟩
          intro b hb
          rw [collapseWS_not_ws ds hdf] at hb
          simp at hb
          subst hb
          exact Or.inr hdf
    · have haf : isWS a = false := by simpa using ha
      rw [collapseWS_not_ws as haf]
      exact List.chain'_cons'.mpr ⟨fun b _ => Or.inl haf, ih⟩

theorem collapseWS_fixed (l : List Char)
    (h1 : ∀ c ∈ l, isWS c = true → c = ' ')
    (h2 : noAdjWS l) : collapseWS l = l := by
  induction l with
  | nil => simp [collapseWS]
  | cons c cs ih =>
    by_cases hc : isWS c = true
    · have hcsp : c = ' ' := h1 c (List.mem_cons_self _ _) hc
      cases cs with
      | nil => rw [collapseWS_ws_nil hc, hcsp]
      | cons d ds =>
        have hR := (List.chain'_cons'.mp h2).1 d (by simp)
        have hd : isWS d = false := by
          rcases hR with hL | hRr
          · rw [hc] at hL; cases hL
          · exact hRr
        rw [collapseWS_ws_not ds hc hd, hcsp,
          ih (fun x hx hws => h1 x (List.mem_cons_of_mem _ hx) hws)
            (List.chain'_cons'.mp h2).2]
    · have hcf : isWS c = false := by simpa using hc
      rw [collapseWS_not_ws cs hcf,
        ih (fun x hx hws => h1 x (List.mem_cons_of_mem _ hx) hws)
          (List.chain'_cons'.mp h2).2]

theorem mem_stripWS {l : List Char} {c : Char} (h : c ∈ stripWS l) : c ∈ l := by
  rw [stripWS] at h
  rw [List.mem_reverse] at h
  have h2 := (List.dropWhile_sublist isWS).subset h
  rw [List.mem_reverse] at h2
  exact (List.dropWhile_sublist isWS).subset h2

theorem noAdjWS_reverse {l : List Char} (h : noAdjWS l) : noAdjWS l.reverse := by
  rw [noAdjWS, List.chain'_reverse]
  exact h.imp (fun a b hab => Or.symm hab)

theorem noAdjWS_stripWS {l : List Char} (h : noAdjWS l) : noAdjWS (stripWS l) :=
  noAdjWS_reverse (((noAdjWS_reverse
    (h.suffix (List.dropWhile_suffix _))).suffix (List.dropWhile_suffix _)))

theorem stripWS_head_false {l : List Char} {x : Char} {xs : List Char}
    (h : stripWS l = x :: xs) : isWS x = false := by
  have hpre : stripWS l <+: l.dropWhile isWS := by
    have h1 : (l.dropWhile isWS).reverse.dropWhile isWS <:+ (l.dropWhile isWS).reverse :=
      List.dropWhile_suffix _
    have h2 := List.reverse_prefix.mpr h1
    rwa [List.reverse_reverse] at h2
  obtain ⟨t, ht⟩ := hpre
  rw [h] at ht
  exact dropWhile_head_false isWS l x (xs ++ t) ht.symm

theorem stripWS_stripWS (l : List Char) : stripWS (stripWS l) = stripWS l := by
  have hA : (stripWS l).dropWhile isWS = stripWS l := by
    cases h : stripWS l with
    | nil => simp
    | cons x xs =>
      rw [List.dropWhile_cons, if_neg (by simp [stripWS_head_false h])]
  have hB : (stripWS l).reverse.dropWhile isWS = (stripWS l).reverse := by
    rw [stripWS, List.reverse_reverse]
    exact dropWhile_dropWhile isWS _
  calc stripWS (stripWS l)
      = (((stripWS l).dropWhile isWS).reverse.dropWhile isWS).reverse := rfl
    _ = ((stripWS l).reverse.dropWhile isWS).reverse := by rw [hA]
    _ = (stripWS l).reverse.reverse := by rw [hB]
    _ = stripWS l := List.reverse_reverse _

theorem map_fixed {f : Char → Char} :
    ∀ {l : List Char}, (∀ c ∈ l, f c = c) → l.map f = l := by
  intro l
  induction l with
  | nil => intro _; simp
  | cons c cs ih =>
    intro h
    simp only [List.map_cons]
    rw [h c (List.mem_cons_self _ _), ih (fun x hx => h x (List.mem_cons_of_mem _ hx))]

/-- Claim C9: the text normalizer is idempotent; applying normalize_text to
an already-normalized string returns it unchanged. -/
theorem claim_C9_normalizer_idempotent (s : String) :
    normalize_text (normalize_text s) = normalize_text s := by
  unfold normalize_text
  have hdata : (String.mk (stripWS (collapseWS (s.data.map nfkcFold)))).data
      = stripWS (collapseWS (s.data.map nfkcFold)) := rfl
  rw [hdata]
  congr 1
  have hfix : ∀ c ∈ stripWS (collapseWS (s.data.map nfkcFold)), nfkcFold c = c := by
    intro c hc
    rcases mem_collapseWS _ c (mem_stripWS hc) with h1 | ⟨h2, _⟩
    · rw [h1]; rfl
    · obtain ⟨a, _, ha⟩ := List.mem_map.mp h2
      rw [← ha]
      exact nfkcFold_idem a
  rw [map_fixed hfix]
  have hP1 : ∀ c ∈ stripWS (collapseWS (s.data.map nfkcFold)), isWS c = true → c = ' ' := by
    intro c hc hws
    rcases mem_collapseWS _ c (mem_stripWS hc) with h1 | ⟨_, h3⟩
    · exact h1
    · rw [hws] at h3; cases h3
  rw [collapseWS_fixed _ hP1 (noAdjWS_stripWS (noAdjWS_collapseWS _)),
    stripWS_stripWS]

theorem le_foldl_max : ∀ (xs : List Nat) (x : Nat), x ≤ xs.foldl Nat.max x := by
  intro xs
  induction xs with
  | nil => intro x; simp
  | cons y ys ih =>
    intro x
    calc x ≤ Nat.max x y := Nat.le_max_left x y
      _ ≤ (y :: ys).foldl Nat.max x := by simpa [List.foldl_cons] using ih (Nat.max x y)

theorem foldl_max_mem : ∀ (xs : List Nat) (x : Nat),
    xs.foldl Nat.max x = x ∨ xs.foldl Nat.max x ∈ xs := by
  intro xs
  induction xs with
  | nil => intro x; simp
  | cons y ys ih =>
    intro x
    rw [List.foldl_cons]
    rcases ih (Nat.max x y) with h | h
    · rw [h]
      rcases Nat.le_total x y with hxy | hxy
      · have hm : Nat.max x y = y := Nat.max_eq_right hxy
        exact Or.inr (by rw [hm]; exact List.mem_cons_self _ _)
      · have hm : Nat.max x y = x := Nat.max_eq_left hxy
        exact Or.inl hm
    · exact Or.inr (List.mem_cons_of_mem _ h)

theorem foldl_max_ge : ∀ (xs : List Nat) (x : Nat), ∀ y ∈ xs, y ≤ xs.foldl Nat.max x := by
  intro xs
  induction xs with
  | nil => intro x y hy; simp at hy
  | cons z zs ih =>
    intro x y hy
    rw [List.foldl_cons]
    rcases List.mem_cons.mp hy with h | h
    · subst h
      calc y ≤ Nat.max x y := Nat.le_max_right x y
        _ ≤ zs.foldl Nat.max (Nat.max x y) := le_foldl_max zs _
    · exact ih (Nat.max x z) y h

/-- The Python max of a nonempty list is a member and dominates all
members. -/
theorem listMax_spec {ns : List Nat} (h : ns ≠ []) :
    listMax ns ∈ ns ∧ ∀ n ∈ ns, n ≤ listMax ns := by
  cases ns with
  | nil => cases h rfl
  | cons x xs =>
    constructor
    · rcases foldl_max_mem xs x with h1 | h1
      · rw [listMax, h1]; exact List.mem_cons_self _ _
      · rw [listMax]; exact List.mem_cons_of_mem _ h1
    · intro n hn
      rcases List.mem_cons.mp hn with h1 | h1
      · subst h1; exact le_foldl_max xs n
      · exact foldl_max_ge xs x n h1

theorem quantityLabel_mem (n : Nat) : quantityLabel n ∈ intensityLabels := by
  unfold quantityLabel
  repeat' split
  all_goals decide

theorem quantityLabel_ne_unknown (n : Nat) : quantityLabel n ≠ "不明" := by
  unfold quantityLabel
  repeat' split
  all_goals decide

theorem scoreLabel_fst_mem (k : Int) : (App5.scoreLabel k).1 ∈ intensityLabels := by
  unfold App5.scoreLabel
  repeat' split
  all_goals decide

theorem intensity_sub_six {x : String} (h : x ∈ intensityLabels) : x ∈ sixLabels := by
  fin_cases h <;> decide

theorem classify5_eq_scoreLabel (s : String)
    (hu : App5.detect_unrelated (normalize_text s) = false) :
    App5.improved_simple_classify s
      = App5.scoreLabel (App5.score_comment (normalize_text s)) := by
  unfold App5.improved_simple_classify
  simp [hu]

theorem classify5_fst_mem (s : String) :
    (App5.improved_simple_classify s).1 ∈ sixLabels := by
  cases hu : App5.detect_unrelated (normalize_text s) with
  | true =>
    unfold App5.improved_simple_classify
    simp [hu, sixLabels]
  | false =>
    rw [classify5_eq_scoreLabel s hu]
    exact intensity_sub_six (scoreLabel_fst_mem _)

theorem if_isEmpty_some {L ns : List Nat}
    (h : (if L.isEmpty then none else some L) = some ns) : ns ≠ [] := by
  split at h
  · cases h
  · rename_i hL
    cases h
    intro hcon
    rw [hcon] at hL
    simp at hL

theorem extract5_some_ne_nil {s : String} {ns : List Nat}
    (h : App5.extract_numbers s = some ns) : ns ≠ [] :=
  if_isEmpty_some h

theorem post_process_row_zero (text current : String)
    (hZ : App5.strongZero text = true) (hV : App5.strongVeryLarge text = false) :
    App5.post_process_row text current = (text, "なし") := by
  by_cases hc : current = "なし"
  · subst hc
    have hc3 : ¬(App5.strongZero text = true ∧ ¬("なし" : String) = "なし") := by
      rintro ⟨_, hx⟩
      exact hx rfl
    have hc2 : ¬(App5.strongVeryLarge text = true
        ∧ ¬(("なし" : String) = "多い" ∨ ("なし" : String) = "非常に多い")) := by
      rw [hV]
      rintro ⟨hx, _⟩
      cases hx
    cases hN : App5.extract_numbers text with
    | none => simp [App5.post_process_row, hN, hV]
    | some ns => simp [App5.post_process_row, hN, hV]
  · have hc3 : App5.strongZero text = true ∧ ¬ current = "なし" := ⟨hZ, hc⟩
    simp only [App5.post_process_row, if_pos hc3]

theorem post_process_row_vl_fire (text current : String)
    (hV : App5.strongVeryLarge text = true) (hZ : App5.strongZero text = false)
    (hc : ¬(current = "多い" ∨ current = "非常に多い")) :
    App5.post_process_row text current = (text, "非常に多い") := by
  have hc3 : ¬(App5.strongZero text = true ∧ ¬ current = "なし") := by
    rw [hZ]
    rintro ⟨hx, _⟩
    cases hx
  have hc2 : App5.strongVeryLarge text = true
      ∧ ¬(current = "多い" ∨ current = "非常に多い") := ⟨hV, hc⟩
  simp only [App5.post_process_row, if_neg hc3, if_pos hc2]

theorem post_process_row_vl_keep (text current : String)
    (_hV : App5.strongVeryLarge text = true) (hZ : App5.strongZero text = false)
    (hc : current = "多い" ∨ current = "非常に多い") :
    App5.post_process_row text current = (text, current) := by
  have hne : ¬ current = "不明" := by rcases hc with h1 | h1 <;> simp [h1]
  have hc3 : ¬(App5.strongZero text = true ∧ ¬ current = "なし") := by
    rw [hZ]
    rintro ⟨hx, _⟩
    cases hx
  have hc2 : ¬(App5.strongVeryLarge text = true
      ∧ ¬(current = "多い" ∨ current = "非常に多い")) := fun hx => hx.2 hc
  cases hN : App5.extract_numbers text with
  | none => simp only [App5.post_process_row, hN, if_neg hc3, if_neg hc2]
  | some ns =>
    simp only [App5.post_process_row, hN, if_neg hc3, if_neg hc2, if_neg hne]

theorem post_process_row_plain (text current : String)
    (hV : App5.strongVeryLarge text = false) (hZ : App5.strongZero text = false) :
    App5.post_process_row text current
      = (text, match App5.extract_numbers text with
          | some ns => if current = "不明" then quantityLabel (listMax ns) else current
          | none => current) := by
  have hc3 : ¬(App5.strongZero text = true ∧ ¬ current = "なし") := by
    rw [hZ]
    rintro ⟨hx, _⟩
    cases hx
  have hc2 : ¬(App5.strongVeryLarge text = true
      ∧ ¬(current = "多い" ∨ current = "非常に多い")) := by
    rw [hV]
    rintro ⟨hx, _⟩
    cases hx
  cases hN : App5.extract_numbers text with
  | none => simp only [App5.post_process_row, hN, if_neg hc3, if_neg hc2]
  | some ns => simp only [App5.post_process_row, hN, if_neg hc3, if_neg hc2]

theorem post_process_row_idem (text current : String)
    (h : ¬(App5.strongVeryLarge text = true ∧ App5.strongZero text = true)) :
    App5.post_process_row (App5.post_process_row text current).1
        (App5.post_process_row text current).2
      = App5.post_process_row text current := by
  cases hV : App5.strongVeryLarge text with
  | true =>
    have hZ : App5.strongZero text = false := by
      cases hz : App5.strongZero text
      · rfl
      · exact absurd ⟨hV, hz⟩ h
    by_cases hc : current = "多い" ∨ current = "非常に多い"
    · rw [post_process_row_vl_keep text current hV hZ hc]
      exact post_process_row_vl_keep text current hV hZ hc
    · rw [post_process_row_vl_fire text current hV hZ hc]
      exact post_process_row_vl_keep text _ hV hZ (Or.inr rfl)
  | false =>
    cases hZ : App5.strongZero text with
    | true =>
      rw [post_process_row_zero text current hZ hV]
      exact post_process_row_zero text _ hZ hV
    | false =>
      cases hN : App5.extract_numbers text with
      | none =>
        rw [post_process_row_plain text current hV hZ]
        simp only [hN]
        rw [post_process_row_plain text current hV hZ]
        simp only [hN]
      | some ns =>
        by_cases hc : current = "不明"
        · subst hc
          rw [post_process_row_plain text _ hV hZ]
          simp only [hN]
          simp only [eq_self_iff_true, if_true]
          rw [post_process_row_plain text _ hV hZ]
          simp [hN, quantityLabel_ne_unknown (listMax ns)]
        · rw [post_process_row_plain text current hV hZ]
          simp only [hN, if_neg hc]
          rw [post_process_row_plain text current hV hZ]
          simp only [hN, if_neg hc]

/-- Claim C1, counterexample: in the score-accumulation mode of app5.py a
present quantity does not determine the label by the fixed thresholds.
For the comment 50匹取れない the extractor finds the quantity 50, whose
threshold label is 多い, yet the negation and small-amount detectors drive
the final label to なし. -/
theorem claim_C1_counterexample :
    App5.extract_numbers (normalize_text ("50匹取れない")) = some [50]
    ∧ quantityLabel 50 = "多い"
    ∧ App5.improved_simple_classify ("50匹取れない") = (("なし"), ("否定表現またはゼロ")) := by
  refine ⟨by decide, by decide, by decide⟩

/-- Claim C1, amended: in the rule-priority mode (app4.py), whenever the
normalized comment is not detected as unrelated and the numeric extractor
finds quantities, the label is the fixed-threshold label (0 none, 1-10
few, 11-30 moderate, 31-70 many, 71 and above very-many) of the maximum
quantity, irrespective of the outputs of the lexical amount and negation
detectors; in the score-accumulation mode (app5.py) the quantity only
contributes a score summand and lexical detectors can change the label. -/
theorem claim_C1_amended (s : String) (ns : List Nat)
    (hu : App4.detect_unrelated (normalize_text s) = false)
    (hn : App4.extract_numbers (normalize_text s) = some ns) :
    App4.improved_simple_classify s = quantityLabel (listMax ns) := by
  unfold App4.improved_simple_classify
  simp [hu, hn]

/-- Claim C1 amended, witness: the comment 50匹取れない fires the negation
detector, yet app4 labels it 多い from the quantity 50 alone. -/
theorem claim_C1_amended_witness :
    App4.improved_simple_classify ("50匹取れない") = "多い" :=
  (claim_C1_amended ("50匹取れない") [50] (by decide) (by decide)).trans (by decide)

/-- Claim C2, counterexample: the fallback classifier of app3.py lines
46-59 uses the FIRST number found, not the maximum.  In the comment below
the findall call yields the quantities 2 and 99 and the maximum is 99
(threshold label 非常に多い), yet the returned representative is
number_matches[0] = 2 and the label is 少ない. -/
theorem claim_C2_counterexample :
    App3.findall_num ("2匹のち99匹") = [2, 99]
    ∧ listMax [2, 99] = 99
    ∧ App3.simple_classify_comment ("2匹のち99匹") = "少ない"
    ∧ quantityLabel 99 = "非常に多い" := by
  refine ⟨by decide, by decide, by decide, by decide⟩

/-- Claim C2, amended: in the app4/app5 extractor the representative
quantity consumed downstream is the Python max of the list of all
quantities found in the whole comment: it is a member of that list and
dominates every member.  The app3.py fallback instead uses the first
match, and app2.py scans sentence-by-sentence from the end. -/
theorem claim_C2_amended (s : String) (ns : List Nat)
    (h : App5.extract_numbers s = some ns) :
    listMax ns ∈ ns ∧ ∀ n ∈ ns, n ≤ listMax ns :=
  listMax_spec (extract5_some_ne_nil h)

/-- Claim C2 amended, witness at the comment 3匹と45匹, whose extracted
list is the two quantities 3 and 45. -/
theorem claim_C2_amended_witness :
    listMax [3, 45] ∈ ([3, 45] : List Nat) ∧ 45 ≤ listMax [3, 45] :=
  ⟨(claim_C2_amended ("3匹と45匹") [3, 45] (by decide)).1,
    (claim_C2_amended ("3匹と45匹") [3, 45] (by decide)).2 45 (by decide)⟩

/-- Claim C3, counterexample: the post-processor is not idempotent.  The
comment 大量にいない matches both the strong very-large group (大量) and the
strong negation group (いない); one pass turns the label 普通 into なし and
a second pass turns なし into 非常に多い. -/
theorem claim_C3_counterexample :
    App5.post_process_classification
        (App5.post_process_classification [(("大量にいない"), ("普通"))])
      ≠ App5.post_process_classification [(("大量にいない"), ("普通"))] := by
  decide

/-- Claim C3, amended: the post-processor is idempotent on every batch in
which no comment text matches both the strong very-large group and the
strong negation group; on a record matching both groups the two override
rules alternate the label between なし and 非常に多い on successive
passes, so a single pass is not a fixed point there. -/
theorem claim_C3_amended (batch : List (String × String))
    (h : ∀ r ∈ batch,
      ¬(App5.strongVeryLarge r.1 = true ∧ App5.strongZero r.1 = true)) :
    App5.post_process_classification (App5.post_process_classification batch)
      = App5.post_process_classification batch := by
  unfold App5.post_process_classification
  rw [List.map_map]
  apply List.map_congr_left
  intro r hr
  obtain ⟨text, current⟩ := r
  simp only [Function.comp_apply]
  exact post_process_row_idem text current (h (text, current) hr)

/-- Claim C3 amended, witness on a two-record batch where no comment
matches both strong groups. -/
theorem claim_C3_amended_witness :
    App5.post_process_classification (App5.post_process_classification
        [(("大量です"), ("普通")), (("0匹でした"), ("不明"))])
      = App5.post_process_classification
        [(("大量です"), ("普通")), (("0匹でした"), ("不明"))] :=
  claim_C3_amended [(("大量です"), ("普通")), (("0匹でした"), ("不明"))] (by decide)

theorem grok_all_attempts_fail (text : String) (outcomes : Nat → RemoteOutcome)
    (h : ∀ i, i < 3 → attemptLevel (outcomes i) = none) :
    App5.classify_comment_with_grok true text outcomes
      = ((App5.improved_simple_classify text).1, 3, [1, 1]) := by
  unfold App5.classify_comment_with_grok
  rw [h 0 (by omega), h 1 (by omega), h 2 (by omega)]
  rfl

/-- Claim C4: when every remote attempt fails, is unparseable, or misses
the surge_level field, the adapter of app5.py makes exactly 3 attempts
with a fixed backoff of 1 time unit between consecutive attempts, and then
returns exactly the locally computed classifier label. -/
theorem claim_C4_retry_exhaustion (text : String) (outcomes : Nat → RemoteOutcome)
    (h : ∀ i, i < 3 → attemptLevel (outcomes i) = none) :
    App5.classify_comment_with_grok true text outcomes
      = ((App5.improved_simple_classify text).1, 3, [1, 1]) :=
  grok_all_attempts_fail text outcomes h

/-- Claim C4, witness: with every attempt raising, the comment ホタルイカ
keeps its local label after 3 attempts and two unit backoffs. -/
theorem claim_C4_witness :
    App5.classify_comment_with_grok true ("ホタルイカ") (fun _ => RemoteOutcome.error)
      = ((App5.improved_simple_classify ("ホタルイカ")).1, 3, [1, 1]) :=
  claim_C4_retry_exhaustion ("ホタルイカ") (fun _ => RemoteOutcome.error)
    (fun _ _ => rfl)

/-- Claim C5, counterexample: in the app5 extractor an explicit literal
zero with a counter merely joins the number list and the representative
maximum wins.  The comment below contains the zero cue 0匹, yet the
representative quantity is 28, not 0; an orthographic zero word (ゼロ)
alone is not extracted at all. -/
theorem claim_C5_counterexample :
    App5.extract_numbers ("0匹でしたが28匹") = some [0, 28]
    ∧ listMax [0, 28] = 28
    ∧ App5.extract_numbers ("ゼロでした") = none := by
  refine ⟨by decide, by decide, by decide⟩

/-- Claim C5, amended: only the app2 extractor gives the zero cue
precedence: whenever the text contains ゼロ, 0匹 or 0杯, extract_count
returns 0 regardless of any other number present.  In app4/app5 a literal
zero joins the number list (where the maximum wins) and orthographic zero
words are handled by the negation detector instead. -/
theorem claim_C5_amended (s : String)
    (h : anyInfix ["ゼロ", "0匹", "0杯"] s.data = true) :
    App2.extract_count s = Except.ok (some 0) := by
  unfold App2.extract_count
  simp [h]

/-- Claim C5 amended, witness: the zero cue wins over the quantity 28. -/
theorem claim_C5_amended_witness :
    App2.extract_count ("ゼロでしたが28匹") = Except.ok (some 0) :=
  claim_C5_amended ("ゼロでしたが28匹") (by decide)

/-- Claim C6, counterexample: the negative-report exception only disables
the question rule.  The short negative question いないですか? contains both
an interrogative marker and the negative-report pattern, yet the detector
still returns true through the short-comment rule. -/
theorem claim_C6_counterexample :
    hasQuestionMarker ("いないですか?") = true
    ∧ hasNegativeReport ("いないですか?") = true
    ∧ App5.detect_unrelated ("いないですか?") = true := by
  refine ⟨by decide, by decide, by decide⟩

/-- Claim C6, amended: a comment containing an interrogative marker and no
negative-report pattern is always detected as unrelated; when the
negative-report pattern is present only the question rule is disabled, and
the comment can still be flagged unrelated by the short-comment or
off-topic rules. -/
theorem claim_C6_amended (s : String)
    (hq : hasQuestionMarker s = true)
    (hn : hasNegativeReport s = false) :
    App5.detect_unrelated s = true := by
  unfold App5.detect_unrelated
  simp [hq, hn]

/-- Claim C6 amended, witness at a plain question comment. -/
theorem claim_C6_amended_witness :
    App5.detect_unrelated ("明日はどうですか?") = true :=
  claim_C6_amended ("明日はどうですか?") (by decide) (by decide)

/-- Claim C7 (code bug): for the range 10〜20 the extractor of app5.py
emits the first endpoint 10, not the floor average 15, because
int(match.group(1)) succeeds on the range pattern and so the except
handler computing the average (announced by the source comment at app5.py
line 83) is unreachable. -/
theorem claim_C7_range_bug :
    App5.extract_numbers ("10〜20") = some [10]
    ∧ (10 + 20) / 2 = 15 := by
  refine ⟨by decide, by decide⟩

/-- Claim C8, counterexample: a parsed response with a present surge_level
value is returned without validation, so the pipeline can output a string
outside the six-label vocabulary. -/
theorem claim_C8_counterexample :
    App5.classify_comment_with_grok true ("ホタルイカ見ました")
        (fun _ => RemoteOutcome.level ("banana"))
      = (("banana"), 1, [])
    ∧ ("banana") ∉ sixLabels := by
  refine ⟨by decide, by decide⟩

/-- Claim C8, amended: a remote response that is unparseable or misses the
surge_level field is retried, and after exhaustion the locally computed
label, always one of the six vocabulary strings, is returned; but a
present surge_level value is returned as the label without validation
against the vocabulary. -/
theorem claim_C8_amended (text : String) (outcomes : Nat → RemoteOutcome)
    (h : ∀ i, i < 3 → attemptLevel (outcomes i) = none) :
    (App5.classify_comment_with_grok true text outcomes).1 ∈ sixLabels := by
  rw [grok_all_attempts_fail text outcomes h]
  exact classify5_fst_mem text

/-- Claim C8 amended, witness: responses missing the surge_level field are
retried and the local label, one of the six, is returned. -/
theorem claim_C8_amended_witness :
    (App5.classify_comment_with_grok true ("3匹でした")
        (fun _ => RemoteOutcome.missingField)).1 ∈ sixLabels :=
  claim_C8_amended ("3匹でした") (fun _ => RemoteOutcome.missingField)
    (fun _ _ => rfl)

/-- Claim C10: in the score-accumulation variant (app5.py), every comment
whose normalized text is not detected as unrelated receives one of the
five intensity labels and never 不明; and with no detector signal and no
extracted number the score is 0 and the label is 普通. -/
theorem claim_C10_related_never_unknown (s : String)
    (hu : App5.detect_unrelated (normalize_text s) = false) :
    ((App5.improved_simple_classify s).1 ∈ intensityLabels
      ∧ (App5.improved_simple_classify s).1 ≠ "不明")
    ∧ (App5.noDetectorSignal (normalize_text s) = true →
        (App5.improved_simple_classify s).1 = "普通") := by
  rw [classify5_eq_scoreLabel s hu]
  refine ⟨⟨scoreLabel_fst_mem _, ?_⟩, ?_⟩
  · intro hcon
    have hmem := scoreLabel_fst_mem (App5.score_comment (normalize_text s))
    rw [hcon] at hmem
    exact absurd hmem (by decide)
  · intro hns
    simp only [App5.noDetectorSignal, Bool.and_eq_true, Bool.not_eq_true'] at hns
    obtain ⟨⟨⟨⟨⟨h1, h2⟩, h3⟩, h4⟩, h5⟩, h6⟩ := hns
    have hN : App5.extract_numbers (normalize_text s) = none :=
      Option.isNone_iff_eq_none.mp h6
    have hscore : App5.score_comment (normalize_text s) = 0 := by
      unfold App5.score_comment
      rw [h1, h2, h3, h4, h5, hN]
      decide
    rw [hscore]
    decide

/-- Claim C10, witness at the comment ホタルイカ: related, no signals,
labelled 普通. -/
theorem claim_C10_witness :
    (App5.improved_simple_classify ("ホタルイカ")).1 ≠ "不明"
    ∧ (App5.improved_simple_classify ("ホタルイカ")).1 = "普通" :=
  ⟨(claim_C10_related_never_unknown ("ホタルイカ") (by decide)).1.2,
    (claim_C10_related_never_unknown ("ホタルイカ") (by decide)).2 (by decide)⟩
